import Mathlib

/-!
Verification of the building-XML-to-GeoJSON conversion pipeline
(shallow embedding of the four Python converter files:
streamlit_app.py, xml_to_geojson.py, xml_to_geojson_fast.py,
xml_to_geojson_gpd.py).

Conventions of the embedding:
- Python floats are modelled as rationals; the standard-library function
  float() is modelled by pyFloat? below, covering decimal literals.
- Python str.split() / str.strip() / str.split(sep) / endswith /
  substring containment are modelled by executable character-list
  functions below.
- An XML document already parsed by xml.etree.ElementTree is modelled
  by the Elem tree; ET.fromstring outcomes are modelled by
  XMLInput := Option Elem, with none standing for an ET.ParseError.
- A Python exception raised by a function is modelled by returning
  Except.error; a caught exception corresponds to matching on it.
- ZIP archives are modelled by Blob: the outcome of opening a byte
  buffer with zipfile.ZipFile (asZip) and of read().decode() followed
  by XML parsing (asXml) are recorded fields, since the byte-level
  codecs are standard-library collaborators.
-/

/-! ## String utilities (models of Python str methods) -/

/-- Model of Python str.split() tokenisation: split on runs of whitespace,
producing no empty tokens.  The first argument accumulates the current
token in reverse. -/
def wsTokens : List Char → List Char → List String
  | [], acc => match acc with
    | [] => []
    | _ => [String.mk acc.reverse]
  | c :: cs, acc =>
    if c.isWhitespace then
      match acc with
      | [] => wsTokens cs []
      | _ => String.mk acc.reverse :: wsTokens cs []
    else wsTokens cs (c :: acc)

/-- Model of Python str.split() with no separator argument. -/
def pySplitWs (s : String) : List String := wsTokens s.data []

/-- Drop leading whitespace characters. -/
def dropLeadingWs : List Char → List Char
  | [] => []
  | c :: cs => if c.isWhitespace then dropLeadingWs cs else c :: cs

/-- Model of Python str.strip(). -/
def pyStrip (s : String) : String :=
  String.mk (dropLeadingWs (dropLeadingWs s.data.reverse).reverse)

/-- Model of Python str.split(sep) for a one-character separator:
split at every occurrence, keeping empty parts. -/
def splitSepAux (sep : Char) : List Char → List Char → List String
  | [], acc => [String.mk acc.reverse]
  | c :: cs, acc =>
    if c = sep then String.mk acc.reverse :: splitSepAux sep cs []
    else splitSepAux sep cs (c :: acc)

/-- Model of Python str.split(sep). -/
def pySplitSep (sep : Char) (s : String) : List String := splitSepAux sep s.data []

/-- Does the character list p occur as a prefix of l. -/
def charListStarts : List Char → List Char → Bool
  | [], _ => true
  | _ :: _, [] => false
  | a :: ps, b :: ls => a == b && charListStarts ps ls

/-- Does the character list p occur as a contiguous sublist of l. -/
def charListIsSub (p : List Char) : List Char → Bool
  | [] => charListStarts p []
  | c :: cs => charListStarts p (c :: cs) || charListIsSub p cs

/-- Model of Python substring containment (pat in s). -/
def strContains (s pat : String) : Bool := charListIsSub pat.data s.data

/-- Model of Python str.startswith. -/
def strStartsWith (s p : String) : Bool := charListStarts p.data s.data

/-- Model of Python str.endswith. -/
def strEndsWith (s p : String) : Bool :=
  charListStarts p.data.reverse s.data.reverse

/-! ## Model of the Python float() standard-library conversion -/

/-- Split off the longest leading run of decimal digits. -/
def takeDigits : List Char → List Char × List Char
  | [] => ([], [])
  | c :: cs =>
    if c.isDigit then
      let p := takeDigits cs
      (c :: p.1, p.2)
    else ([], c :: cs)

/-- Numeric value of a digit run. -/
def digitsToNat (l : List Char) : ℕ :=
  l.foldl (fun a c => 10 * a + (c.toNat - 48)) 0

/-- Exponent suffix of a float literal after the e/E marker: an optional
sign and a digit run that must end the token. -/
def expTail (r : List Char) : Option ℤ :=
  let p : ℤ × List Char := match r with
    | '+' :: t => (1, t)
    | '-' :: t => (-1, t)
    | t => (1, t)
  let d := takeDigits p.2
  if d.1 = [] then none
  else if d.2 ≠ [] then none
  else some (p.1 * (digitsToNat d.1 : ℤ))

/-- Mantissa continuation: end of token means exponent zero, otherwise an
explicit e/E exponent suffix is required. -/
def expPart : List Char → Option ℤ
  | [] => some 0
  | c :: r => if c = 'e' ∨ c = 'E' then expTail r else none

/-- Rational value of sign, scaled mantissa n / 10 ^ k, and exponent e. -/
def floatVal (sgn : ℤ) (n k : ℕ) (e : ℤ) : ℚ :=
  if 0 ≤ e then mkRat (sgn * (n : ℤ) * (10 : ℤ) ^ e.toNat) ((10 : ℕ) ^ k)
  else mkRat (sgn * (n : ℤ)) ((10 : ℕ) ^ (k + e.natAbs))

/-- Model of Python float() on a decimal literal token: optional sign,
then digits with an optional fractional part (at least one digit on one
side of the dot), then an optional exponent.  Returns none where float()
raises ValueError. -/
def pyFloatChars (cs0 : List Char) : Option ℚ :=
  let p : ℤ × List Char := match cs0 with
    | '+' :: t => (1, t)
    | '-' :: t => (-1, t)
    | t => (1, t)
  let ip := takeDigits p.2
  match ip.2 with
  | '.' :: r =>
    let fp := takeDigits r
    if ip.1 = [] ∧ fp.1 = [] then none
    else (expPart fp.2).map (fun e =>
      floatVal p.1 (digitsToNat ip.1 * 10 ^ fp.1.length + digitsToNat fp.1) fp.1.length e)
  | _ =>
    if ip.1 = [] then none
    else (expPart ip.2).map (fun e => floatVal p.1 (digitsToNat ip.1) 0 e)

/-- Model of Python float() on a string token. -/
def pyFloat? (s : String) : Option ℚ := pyFloatChars s.data


/-! ## XML element trees (model of xml.etree.ElementTree elements) -/

mutual

/-- A parsed XML element: fully qualified tag (ElementTree style, with the
namespace URI in braces), attribute list, text content, and child list. -/
inductive Elem : Type where
  | mk (tag : String) (attrib : List (String × String))
       (text : Option String) (children : ElemList)

/-- Children of an element (a dedicated list type, so that all functions on
trees are structurally recursive and kernel-computable). -/
inductive ElemList : Type where
  | nil : ElemList
  | cons : Elem → ElemList → ElemList

end

deriving instance DecidableEq for Elem

def Elem.tag : Elem → String
  | .mk t _ _ _ => t

def Elem.attrib : Elem → List (String × String)
  | .mk _ a _ _ => a

def Elem.text : Elem → Option String
  | .mk _ _ x _ => x

def Elem.children : Elem → ElemList
  | .mk _ _ _ c => c

def ElemList.toList : ElemList → List Elem
  | .nil => []
  | .cons e es => e :: es.toList

mutual

/-- All proper descendants of an element, in document (pre-)order; the
element itself is not included.  This is the search order of
ElementTree findall and find with a .// path. -/
def Elem.descendants : Elem → List Elem
  | .mk _ _ _ cs => ElemList.descList cs

def ElemList.descList : ElemList → List Elem
  | .nil => []
  | .cons c cs => c :: c.descendants ++ cs.descList

end

/-- Model of element.findall with a tag path prefixed by the descendant axis. -/
def findallDesc (t : String) (e : Elem) : List Elem :=
  e.descendants.filter (fun d => d.tag == t)

/-- Model of element.find with a tag path prefixed by the descendant axis. -/
def findFirstDesc (t : String) (e : Elem) : Option Elem :=
  e.descendants.find? (fun d => d.tag == t)

/-- The FGD namespace brace prefix (self.fgd_ns in the converters). -/
def fgd_ns : String := "\x7bhttp://fgd.gsi.go.jp/spec/2008/FGD_GMLSchema\x7d"

/-- The GML namespace brace prefix (self.gml_ns in the converters). -/
def gml_ns : String := "\x7bhttp://www.opengis.net/gml/3.2\x7d"

/-- Qualified tag of building elements, as searched by the converters. -/
def bldATag : String := fgd_ns ++ "BldA"

/-- Qualified tag of coordinate-list elements. -/
def gmlPosListTag : String := gml_ns ++ "posList"

/-- Outcome of ET.fromstring: none models an ET.ParseError. -/
abbrev XMLInput := Option Elem

/-! ## Python dict model (insertion-ordered association list) -/

/-- The properties mapping of a feature: insertion-ordered keys, values are
element text contents (which may be missing, as in Python None). -/
abbrev PropDict := List (String × Option String)

/-- Model of Python dict assignment d[k] = v: overwrite in place if the key
is present, else append. -/
def dictInsert (d : List (String × α)) (k : String) (v : α) : List (String × α) :=
  match d with
  | [] => [(k, v)]
  | p :: rest => if p.1 == k then (k, v) :: rest else p :: dictInsert rest k v

/-- Model of Python dict lookup d.get(k) (and of the membership test). -/
def dictGet (d : List (String × α)) (k : String) : Option α :=
  (d.find? (fun p => p.1 == k)).map (fun p => p.2)

/-! ## GeoJSON feature records -/

/-- A coordinate pair as produced by the converters: longitude first. -/
abbrev Coord := ℚ × ℚ

/-- The geometry member of an output feature. -/
structure Geometry where
  gtype : String
  coordinates : List (List Coord)
deriving DecidableEq

/-- One output GeoJSON feature. -/
structure Feature where
  ftype : String
  geometry : Geometry
  properties : PropDict
deriving DecidableEq


/-! ## Attribute extraction (the child loop shared verbatim by the four
converter files) -/

/-- Tag-name resolution of the child-attribute loop, identical in
streamlit_app.py (line 74), xml_to_geojson.py (line 74),
xml_to_geojson_fast.py (line 78) and xml_to_geojson_gpd.py (line 86):
when the tag both starts with an opening brace and ends with a closing
brace, take the piece after the first closing brace (split at the closing
brace, index 1); otherwise keep the whole tag. -/
def tagNameOf (child : Elem) : String :=
  if strStartsWith child.tag "\x7b" && strEndsWith child.tag "\x7d" then
    (pySplitSep '\x7d' child.tag).getD 1 ""
  else child.tag

/-- The fixed attribute allow-list of the converters. -/
def allowList : List String := ["fid", "type", "orgGILvl"]

/-- Body of the child-attribute loop: keep the child's text under its
resolved tag name when that name is allow-listed. -/
def addChildProp (acc : PropDict) (child : Elem) : PropDict :=
  if allowList.contains (tagNameOf child) then
    dictInsert acc (tagNameOf child) child.text
  else acc

/-- The properties dict just before the gml:id step: the optional
source_file entry (streamlit_app.py lines 69-70; absent in the other
files, modelled by src = none) followed by the child-attribute loop.
The guard is the Python truthiness test if source_zip_name: — both None
and the empty display name skip the insert. -/
def basePropsOf (src : Option String) (b : Elem) : PropDict :=
  let p0 : PropDict := []
  let p1 := match src with
    | some n => if n = "" then p0 else dictInsert p0 "source_file" (some n)
    | none => p0
  b.children.toList.foldl addChildProp p1

/-- The full properties dict of a building element: child attributes, then
the gml:id attribute under the key gml_id when present. -/
def buildProperties (src : Option String) (b : Elem) : PropDict :=
  match dictGet b.attrib "gml:id" with
  | some v => dictInsert (basePropsOf src b) "gml_id" (some v)
  | none => basePropsOf src b

/-! ## streamlit_app.py: FastXMLToGeoJSONConverter -/

namespace Streamlit

/-- The loop of parse_coordinates (streamlit_app.py lines 34-41): consume
tokens two at a time as latitude then longitude, emit the swapped pair;
a dangling final token is never read; float() failure raises. -/
def parseLoop : List String → Except String (List Coord)
  | a :: b :: rest =>
    match pyFloat? a with
    | none => .error ("could not convert string to float: " ++ a)
    | some lat =>
      match pyFloat? b with
      | none => .error ("could not convert string to float: " ++ b)
      | some lon => (parseLoop rest).map (fun cs => (lon, lat) :: cs)
  | _ => .ok []

/-- parse_coordinates (streamlit_app.py lines 25-42). -/
def parse_coordinates (s : String) : Except String (List Coord) :=
  if s = "" then .ok []
  else parseLoop (pySplitWs (pyStrip s))

/-- The body of the building loop in parse_building_xml (streamlit_app.py
lines 58-96): zero or one features for one building element. -/
def processBuilding (src : Option String) (building : Elem) :
    Except String (List Feature) :=
  match findFirstDesc gmlPosListTag building with
  | none => .ok []
  | some poslist =>
    match poslist.text with
    | none => .ok []
    | some t =>
      if t = "" then .ok []
      else
        match parse_coordinates t with
        | .error e => .error e
        | .ok coords =>
          if 3 ≤ coords.length then
            .ok [{ ftype := "Feature",
                   geometry := { gtype := "Polygon", coordinates := [coords] },
                   properties := buildProperties src building }]
          else .ok []

/-- The building loop of parse_building_xml, appending features in order. -/
def processBuildings (src : Option String) : List Elem → Except String (List Feature)
  | [] => .ok []
  | b :: bs =>
    match processBuilding src b with
    | .error e => .error e
    | .ok fs =>
      match processBuildings src bs with
      | .error e => .error e
      | .ok rest => .ok (fs ++ rest)

/-- parse_building_xml (streamlit_app.py lines 44-98).  The string list in
the result records the st.error messages displayed; a malformed document
(XMLInput none) yields an empty feature list plus an error report, while a
float() exception propagates as Except.error. -/
def parse_building_xml (xml : XMLInput) (source_zip_name : Option String) :
    Except String (List Feature × List String) :=
  match xml with
  | none => .ok ([], ["XML parse error"])
  | some root =>
    match processBuildings source_zip_name (findallDesc bldATag root) with
    | .error e => .error e
    | .ok fs => .ok (fs, [])

end Streamlit

/-! ## ZIP archives (model of the zipfile collaborator) -/

/-- An archive entry payload, recording the outcomes of the two
standard-library operations the walker applies to it: opening it with
zipfile.ZipFile (none models a raised BadZipFile or similar), and
read().decode() followed by ET parsing (outer none models a decode
failure; some none models text that ET.fromstring rejects). -/
inductive Blob : Type where
  | mk : Option (List (String × Blob)) → Option XMLInput → Blob

/-- Entry listing of an archive, in central-directory order. -/
abbrev ZipListing := List (String × Blob)

/-- Outcome of opening this payload as a ZIP archive. -/
def Blob.asZip : Blob → Option ZipListing
  | .mk z _ => z

/-- Outcome of decoding this payload and parsing it as XML. -/
def Blob.asXml : Blob → Option XMLInput
  | .mk _ x => x

/-- Name filter for building XML payloads (streamlit_app.py lines 113 and
126): the name contains the building-layer marker and ends in .xml. -/
def isBldAXmlName (n : String) : Bool :=
  strContains n "-BldA-" && strEndsWith n ".xml"

/-- Name filter for nested sub-archives (streamlit_app.py line 112). -/
def isZipName (n : String) : Bool := strEndsWith n ".zip"

namespace Streamlit

/-- Body of the XML-entry loop (streamlit_app.py lines 128-140 and
147-159): decode the entry, convert it, and turn any exception into a
warning for this entry while contributing no features. -/
def processXmlEntry (zipName : String) (entry : String × Blob) :
    List Feature × List String :=
  match entry.2.asXml with
  | none => ([], ["entry error: " ++ entry.1])
  | some xml =>
    match parse_building_xml xml (some zipName) with
    | .error _ => ([], ["entry error: " ++ entry.1])
    | .ok (fs, log) => (fs, log)

/-- Body of the sub-archive loop (streamlit_app.py lines 117-143): open the
sub-archive (failure becomes a warning), filter its building XML entries,
and run the XML-entry loop over them. -/
def processSubZip (zipName : String) (entry : String × Blob) :
    List Feature × List String :=
  match entry.2.asZip with
  | none => ([], ["sub zip error: " ++ entry.1])
  | some subList =>
    (subList.filter (fun f => isBldAXmlName f.1)).foldl
      (fun acc f =>
        let r := processXmlEntry zipName f
        (acc.1 ++ r.1, acc.2 ++ r.2))
      ([], [])

/-- The case-1 accumulation loop over sub-archives. -/
def subZipFold (zipName : String) (l : ZipListing) : List Feature × List String :=
  l.foldl
    (fun acc e =>
      let r := processSubZip zipName e
      (acc.1 ++ r.1, acc.2 ++ r.2))
    ([], [])

/-- The case-2 accumulation loop over direct XML entries. -/
def xmlFold (zipName : String) (l : ZipListing) : List Feature × List String :=
  l.foldl
    (fun acc e =>
      let r := processXmlEntry zipName e
      (acc.1 ++ r.1, acc.2 ++ r.2))
    ([], [])

/-- extract_and_convert_building_files (streamlit_app.py lines 100-167).
The second component records the warnings and errors displayed. -/
def extract_and_convert_building_files (zipData : Blob) (zipName : String) :
    List Feature × List String :=
  match zipData.asZip with
  | none => ([], ["zip processing error: " ++ zipName])
  | some file_list =>
    let zip_files := file_list.filter (fun f => isZipName f.1)
    let xml_files := file_list.filter (fun f => isBldAXmlName f.1)
    if zip_files.isEmpty = false then subZipFold zipName zip_files
    else if xml_files.isEmpty = false then xmlFold zipName xml_files
    else ([], ["no building data found: " ++ zipName])

/-- The accumulation loop of main (streamlit_app.py lines 207-215): process
the uploaded archives in order, extending one shared feature list. -/
def mainMerge (inputs : List (String × Blob)) : List Feature :=
  inputs.foldl
    (fun acc i => acc ++ (extract_and_convert_building_files i.2 i.1).1)
    []

end Streamlit

/-! ## xml_to_geojson.py: XMLToGeoJSONConverter -/

namespace XTG

/-- The loop of parse_coordinates (xml_to_geojson.py lines 42-49). -/
def parseLoop : List String → Except String (List Coord)
  | a :: b :: rest =>
    match pyFloat? a with
    | none => .error ("could not convert string to float: " ++ a)
    | some lat =>
      match pyFloat? b with
      | none => .error ("could not convert string to float: " ++ b)
      | some lon => (parseLoop rest).map (fun cs => (lon, lat) :: cs)
  | _ => .ok []

/-- parse_coordinates (xml_to_geojson.py lines 33-50). -/
def parse_coordinates (s : String) : Except String (List Coord) :=
  if s = "" then .ok []
  else parseLoop (pySplitWs (pyStrip s))

/-- parse_gml_poslist (xml_to_geojson.py lines 52-59). -/
def parse_gml_poslist (p : Option Elem) : Except String (List Coord) :=
  match p with
  | none => .ok []
  | some e =>
    match e.text with
    | none => .ok []
    | some t => if t = "" then .ok [] else parse_coordinates t

/-- create_geojson_feature (xml_to_geojson.py lines 68-101): build the
properties, then return a feature only when the geometry is non-empty and
has at least 3 points. -/
def create_geojson_feature (building : Elem) (geometry_coords : List Coord) :
    Option Feature :=
  let properties := buildProperties none building
  if geometry_coords.isEmpty = false ∧ 3 ≤ geometry_coords.length then
    some { ftype := "Feature",
           geometry := { gtype := "Polygon", coordinates := [geometry_coords] },
           properties := properties }
  else none

/-- Body of the building loop of parse_building_xml (xml_to_geojson.py
lines 118-129). -/
def processBuilding (building : Elem) : Except String (List Feature) :=
  let pl := findFirstDesc gmlPosListTag building
  let coordsE : Except String (List Coord) :=
    match pl with
    | none => .ok []
    | some poslist =>
      match poslist.text with
      | none => .ok []
      | some t => if t = "" then .ok [] else parse_gml_poslist pl
  match coordsE with
  | .error e => .error e
  | .ok geometry_coords =>
    match create_geojson_feature building geometry_coords with
    | some f => .ok [f]
    | none => .ok []

/-- The building loop of parse_building_xml. -/
def processBuildings : List Elem → Except String (List Feature)
  | [] => .ok []
  | b :: bs =>
    match processBuilding b with
    | .error e => .error e
    | .ok fs =>
      match processBuildings bs with
      | .error e => .error e
      | .ok rest => .ok (fs ++ rest)

/-- parse_building_xml (xml_to_geojson.py lines 103-131). -/
def parse_building_xml (xml : XMLInput) :
    Except String (List Feature × List String) :=
  match xml with
  | none => .ok ([], ["XML parse error"])
  | some root =>
    match processBuildings (findallDesc bldATag root) with
    | .error e => .error e
    | .ok fs => .ok (fs, [])

end XTG

/-! ## xml_to_geojson_fast.py: FastXMLToGeoJSONConverter (script variant) -/

namespace Fast

/-- The loop of parse_coordinates (xml_to_geojson_fast.py lines 37-44). -/
def parseLoop : List String → Except String (List Coord)
  | a :: b :: rest =>
    match pyFloat? a with
    | none => .error ("could not convert string to float: " ++ a)
    | some lat =>
      match pyFloat? b with
      | none => .error ("could not convert string to float: " ++ b)
      | some lon => (parseLoop rest).map (fun cs => (lon, lat) :: cs)
  | _ => .ok []

/-- parse_coordinates (xml_to_geojson_fast.py lines 28-45). -/
def parse_coordinates (s : String) : Except String (List Coord) :=
  if s = "" then .ok []
  else parseLoop (pySplitWs (pyStrip s))

end Fast

/-! ## xml_to_geojson_gpd.py: XMLToGeoJSONConverterGPD -/

namespace GPD

/-- The loop of parse_coordinates (xml_to_geojson_gpd.py lines 41-48). -/
def parseLoop : List String → Except String (List Coord)
  | a :: b :: rest =>
    match pyFloat? a with
    | none => .error ("could not convert string to float: " ++ a)
    | some lat =>
      match pyFloat? b with
      | none => .error ("could not convert string to float: " ++ b)
      | some lon => (parseLoop rest).map (fun cs => (lon, lat) :: cs)
  | _ => .ok []

/-- parse_coordinates (xml_to_geojson_gpd.py lines 32-49). -/
def parse_coordinates (s : String) : Except String (List Coord) :=
  if s = "" then .ok []
  else parseLoop (pySplitWs (pyStrip s))

end GPD

/-! ## JSON serialization (model of json.dumps with ensure_ascii=False) -/

/-- JSON values. -/
inductive Json : Type where
  | null : Json
  | bool : Bool → Json
  | num : ℚ → Json
  | str : String → Json
  | arr : List Json → Json
  | obj : List (String × Json) → Json

/-- Escape of one character inside a JSON string literal under
ensure_ascii=False: only the quote, the backslash and control characters
are escaped; every other character, ASCII or not, is kept literally. -/
def escCharL (c : Char) : List Char :=
  if c = '"' then ['\\', '"']
  else if c = '\\' then ['\\', '\\']
  else if c = '\n' then ['\\', 'n']
  else if c = '\r' then ['\\', 'r']
  else if c = '\t' then ['\\', 't']
  else if c.toNat < 32 then
    ['\\', 'u', hexDigit (c.toNat / 4096 % 16), hexDigit (c.toNat / 256 % 16),
     hexDigit (c.toNat / 16 % 16), hexDigit (c.toNat % 16)]
  else [c]
where
  hexDigit (n : ℕ) : Char :=
    if n < 10 then Char.ofNat (48 + n) else Char.ofNat (87 + n)

/-- Escape of a whole string body. -/
def escChars (l : List Char) : List Char := l.flatMap escCharL

/-- Rendering of a number (the digits of a serialized float are a
collaborator concern; this rendering is injective on the model values). -/
def numRepr (q : ℚ) : String := toString q.num ++ "/" ++ toString q.den

/-- Comma-join of serialized items. -/
def joinComma : List String → String
  | [] => ""
  | [x] => x
  | x :: y :: r => x ++ ", " ++ joinComma (y :: r)

/-- Model of json.dumps with ensure_ascii=False (whitespace layout of the
indent option abstracted away). -/
def dumps : Json → String
  | .null => "null"
  | .bool b => if b then "true" else "false"
  | .num q => numRepr q
  | .str s => "\"" ++ String.mk (escChars s.data) ++ "\""
  | .arr xs => "[" ++ joinComma (xs.attach.map (fun x => dumps x.1)) ++ "]"
  | .obj kvs =>
    "\x7b" ++
      joinComma (kvs.attach.map (fun kv =>
        "\"" ++ String.mk (escChars kv.1.1.data) ++ "\": " ++ dumps kv.1.2)) ++
    "\x7d"
decreasing_by
  · have := List.sizeOf_lt_of_mem x.2
    simp [Json.arr.sizeOf_spec]
    omega
  · obtain ⟨⟨k1, v1⟩, hmem⟩ := kv
    have := List.sizeOf_lt_of_mem hmem
    simp at this ⊢
    omega

/-- JSON image of a property value (Python None becomes null). -/
def propValJson : Option String → Json
  | none => .null
  | some s => .str s

/-- JSON image of a coordinate pair (a 2-element array). -/
def coordJson (c : Coord) : Json := .arr [.num c.1, .num c.2]

/-- JSON image of one feature dict as built by the converters. -/
def featureToJson (f : Feature) : Json :=
  .obj [("type", .str f.ftype),
        ("geometry", .obj
          [("type", .str f.geometry.gtype),
           ("coordinates", .arr (f.geometry.coordinates.map
              (fun ring => .arr (ring.map coordJson))))]),
        ("properties", .obj (f.properties.map (fun p => (p.1, propValJson p.2))))]

/-- The output dict of main (streamlit_app.py lines 225-228 and
xml_to_geojson.py lines 200-203). -/
def geojson_data (features : List Feature) : Json :=
  .obj [("type", .str "FeatureCollection"),
        ("features", .arr (features.map featureToJson))]

/-- The serialized output string (json.dumps(..., ensure_ascii=False)). -/
def geojson_json (features : List Feature) : String :=
  dumps (geojson_data features)

/-- Keys of a JSON object, in order (none when not an object). -/
def jsonKeys : Json → Option (List String)
  | .obj kvs => some (kvs.map (fun p => p.1))
  | _ => none

/-- Member lookup on a JSON object. -/
def jsonGet (j : Json) (k : String) : Option Json :=
  match j with
  | .obj kvs => (kvs.find? (fun p => p.1 == k)).map (fun p => p.2)
  | _ => none

/-! ## Specification helpers (used only in theorem statements) -/

/-- Swapped pairing of an even-or-odd stream of values: pairs are taken two
at a time as latitude then longitude, and emitted as (longitude, latitude);
a dangling value is dropped. -/
def swapPairs : List ℚ → List Coord
  | a :: b :: r => (b, a) :: swapPairs r
  | _ => []

/-- Decidable emission condition for one building element under the
streamlit converter: the first posList descendant exists, carries non-empty
text, and that text decodes to at least 3 coordinate pairs. -/
def emitsFeature (b : Elem) : Bool :=
  match findFirstDesc gmlPosListTag b with
  | none => false
  | some p =>
    match p.text with
    | none => false
    | some t =>
      if t = "" then false
      else
        match Streamlit.parse_coordinates t with
        | .ok cs => 3 ≤ cs.length
        | .error _ => false

/-- Decidable quiet-skip condition for one building element: no posList
descendant, or empty text, or a successfully decoded geometry with fewer
than 3 pairs. -/
def skipsQuietly (b : Elem) : Bool :=
  match findFirstDesc gmlPosListTag b with
  | none => true
  | some p =>
    match p.text with
    | none => true
    | some t =>
      if t = "" then true
      else
        match Streamlit.parse_coordinates t with
        | .ok cs => cs.length < 3
        | .error _ => false

/-! ## Concrete fixtures for witnesses and counterexamples -/

/-- A posList element with the given text. -/
def mkPosList (t : String) : Elem := .mk gmlPosListTag [] (some t) .nil

/-- A building element with a single posList child. -/
def mkBld (t : String) : Elem :=
  .mk bldATag [] none (.cons (mkPosList t) .nil)

/-- A building whose ring has 4 points. -/
def bldFour : Elem := mkBld "34 135 34 136 35 136 34 135"

/-- A building whose ring has only 2 points. -/
def bldTwo : Elem := mkBld "34 135 34 136"

/-- A document with one 4-point and one 2-point building. -/
def docFourTwo : Elem := .mk "Dataset" [] none (.cons bldFour (.cons bldTwo .nil))

/-- The feature extracted from bldFour with no source name. -/
def featFour : Feature :=
  { ftype := "Feature",
    geometry := { gtype := "Polygon",
                  coordinates := [[(135, 34), (136, 34), (136, 35), (135, 34)]] },
    properties := [] }

/-- The feature extracted from bldFour with source name A.zip. -/
def featFourA : Feature :=
  { featFour with properties := [("source_file", some "A.zip")] }

/-- The feature extracted from bldFour with source name B.zip. -/
def featFourB : Feature :=
  { featFour with properties := [("source_file", some "B.zip")] }

/-- A namespaced fid child, as produced by ElementTree on FGD data. -/
def nsFidChild : Elem := .mk (fgd_ns ++ "fid") [] (some "51394689") .nil

/-- A building element carrying a namespaced fid child and a 3-point ring. -/
def bldNsFid : Elem :=
  .mk bldATag [] none
    (.cons nsFidChild (.cons (mkPosList "35 139 36 140 37 141") .nil))

/-- A document containing only bldNsFid. -/
def docNsFid : Elem := .mk "Dataset" [] none (.cons bldNsFid .nil)

/-- The feature the converter actually extracts from docNsFid: note the
empty properties, although the fid child is present. -/
def featNsFid : Feature :=
  { ftype := "Feature",
    geometry := { gtype := "Polygon",
                  coordinates := [[(139, 35), (140, 36), (141, 37)]] },
    properties := [] }

/-- A building element as ElementTree actually parses one carrying the
attribute gml:id="BLD123": the parser expands the declared prefix, so the
attribute key is the namespace-qualified id, never the literal gml:id. -/
def bldNsGmlId : Elem :=
  .mk bldATag [(gml_ns ++ "id", "BLD123")] none
    (.cons (mkPosList "35 139 36 140 37 141") .nil)

/-- A document containing only bldNsGmlId. -/
def docNsGmlId : Elem := .mk "Dataset" [] none (.cons bldNsGmlId .nil)

/-- The feature the converter actually extracts from docNsGmlId: note the
empty properties, although the building carries a gml:id attribute. -/
def featNsGmlId : Feature :=
  { ftype := "Feature",
    geometry := { gtype := "Polygon",
                  coordinates := [[(139, 35), (140, 36), (141, 37)]] },
    properties := [] }

/-- An XML payload blob that decodes and parses to docFourTwo. -/
def blobDocFourTwo : Blob := .mk none (some (some docFourTwo))

/-- A sub-archive containing one building XML entry. -/
def subZipBlob : Blob := .mk (some [("01-BldA-01.xml", blobDocFourTwo)]) none

/-- A top-level archive wrapping one sub-archive (case 1 of the walker). -/
def archiveNested : Blob := .mk (some [("sub1.zip", subZipBlob)]) none

/-- A top-level archive holding the building XML directly (case 2). -/
def archiveFlat : Blob := .mk (some [("02-BldA-02.xml", blobDocFourTwo)]) none

/-- A top-level archive with no sub-archives and no building XML (case 3). -/
def archiveEmpty : Blob := .mk (some [("readme.txt", Blob.mk none none)]) none

/-- A payload that can be opened neither as a ZIP nor as XML text. -/
def blobOpaque : Blob := .mk none none

/-- A payload that decodes to text which ET.fromstring rejects. -/
def blobMalformed : Blob := .mk none (some none)

/-- A sub-archive with a malformed document between two good ones. -/
def subZipMixed : Blob :=
  .mk (some [("01-BldA-01.xml", blobDocFourTwo),
             ("02-BldA-02.xml", blobMalformed),
             ("03-BldA-03.xml", blobDocFourTwo)]) none

/-- A building whose posList text has a non-numeric token in consumed
position. -/
def bldBad : Elem := mkBld "35 abc"

/-- The float error message raised on the token abc. -/
def abcErr : String := "could not convert string to float: abc"

/-! ## Helper lemmas -/

/-- Two-at-a-time list induction, matching the coordinate loop shape. -/
theorem twoStepInduction {α : Type _} {P : List α → Prop} (h0 : P [])
    (h1 : ∀ a, P [a]) (h2 : ∀ a b l, P l → P (a :: b :: l)) : ∀ l, P l
  | [] => h0
  | [a] => h1 a
  | a :: b :: l => h2 a b l (twoStepInduction h0 h1 h2 l)

theorem dictGet_insert_self (d : List (String × α)) (k : String) (v : α) :
    dictGet (dictInsert d k v) k = some v := by
  induction d with
  | nil => simp [dictInsert, dictGet]
  | cons p rest ih =>
    by_cases h : p.1 = k
    · rw [dictInsert, if_pos (by simpa using h), dictGet,
        List.find?_cons_of_pos _ (by simp)]
      rfl
    · rw [dictInsert, if_neg (by simpa using h), dictGet,
        List.find?_cons_of_neg _ (by simpa using h)]
      exact ih

theorem dictGet_insert_ne (d : List (String × α)) (k : String) (v : α)
    (k' : String) (h : k' ≠ k) :
    dictGet (dictInsert d k v) k' = dictGet d k' := by
  induction d with
  | nil =>
    rw [dictInsert, dictGet, dictGet,
      List.find?_cons_of_neg _ (by simpa using fun e => h e.symm)]
  | cons p rest ih =>
    by_cases hp : p.1 = k
    · rw [dictInsert, if_pos (by simpa using hp), dictGet, dictGet,
        List.find?_cons_of_neg _ (by simpa using fun e => h e.symm)]
      by_cases hp' : p.1 = k'
      · exact absurd (hp'.symm.trans hp) h
      · rw [List.find?_cons_of_neg _ (by simpa using hp')]
    · rw [dictInsert, if_neg (by simpa using hp), dictGet, dictGet]
      by_cases hp' : p.1 = k'
      · rw [List.find?_cons_of_pos _ (by simpa using hp'),
          List.find?_cons_of_pos _ (by simpa using hp')]
      · rw [List.find?_cons_of_neg _ (by simpa using hp'),
          List.find?_cons_of_neg _ (by simpa using hp')]
        exact ih

/-- The accumulation loops of the walker are concatenations. -/
theorem foldl_pair_eq_flatMap {α β γ : Type _} (f : α → List β × List γ) :
    ∀ (l : List α) (acc : List β × List γ),
      l.foldl (fun a e => (a.1 ++ (f e).1, a.2 ++ (f e).2)) acc
        = (acc.1 ++ l.flatMap (fun e => (f e).1),
           acc.2 ++ l.flatMap (fun e => (f e).2)) := by
  intro l
  induction l with
  | nil => intro acc; simp
  | cons e r ih => intro acc; simp [List.foldl, ih]

/-- The accumulation loop of main is a concatenation. -/
theorem foldl_list_eq_flatMap {α β : Type _} (f : α → List β) :
    ∀ (l : List α) (acc : List β),
      l.foldl (fun a e => a ++ f e) acc = acc ++ l.flatMap f := by
  intro l
  induction l with
  | nil => intro acc; simp
  | cons e r ih => intro acc; simp [List.foldl, ih]

theorem swapPairs_length : ∀ qs : List ℚ, (swapPairs qs).length = qs.length / 2 := by
  apply twoStepInduction
  · simp [swapPairs]
  · intro a; simp [swapPairs]
  · intro a b l ih
    simp [swapPairs, ih]
    omega

theorem swapPairs_get :
    ∀ (qs : List ℚ) (i : ℕ) (a b : ℚ), qs.get? (2 * i) = some a →
      qs.get? (2 * i + 1) = some b → (swapPairs qs).get? i = some (b, a) := by
  apply twoStepInduction
    (P := fun qs => ∀ (i : ℕ) (a b : ℚ), qs.get? (2 * i) = some a →
      qs.get? (2 * i + 1) = some b → (swapPairs qs).get? i = some (b, a))
  · intro i a b h1 _; simp at h1
  · intro x i a b h1 h2
    rcases i with _ | j
    · simp at h2
    · rw [show 2 * (j + 1) = 2 * j + 1 + 1 by ring, List.get?_cons_succ] at h1
      simp at h1
  · intro x y l ih i a b h1 h2
    rcases i with _ | j
    · rw [Nat.mul_zero, List.get?_cons_zero] at h1
      rw [Nat.mul_zero, Nat.zero_add, List.get?_cons_succ, List.get?_cons_zero] at h2
      cases h1; cases h2
      rfl
    · rw [show 2 * (j + 1) = 2 * j + 1 + 1 by ring, List.get?_cons_succ,
        List.get?_cons_succ] at h1
      rw [show 2 * (j + 1) + 1 = 2 * j + 1 + 1 + 1 by ring, List.get?_cons_succ,
        List.get?_cons_succ] at h2
      rw [show swapPairs (x :: y :: l) = (y, x) :: swapPairs l from rfl,
        List.get?_cons_succ]
      exact ih j a b (by simpa using h1) h2

theorem parseLoop_eq_XTG : ∀ t, Streamlit.parseLoop t = XTG.parseLoop t := by
  apply twoStepInduction
  · rfl
  · intro a; rfl
  · intro a b l ih
    simp only [Streamlit.parseLoop, XTG.parseLoop]
    cases pyFloat? a <;> cases pyFloat? b <;> simp [ih]

theorem parseLoop_eq_Fast : ∀ t, Streamlit.parseLoop t = Fast.parseLoop t := by
  apply twoStepInduction
  · rfl
  · intro a; rfl
  · intro a b l ih
    simp only [Streamlit.parseLoop, Fast.parseLoop]
    cases pyFloat? a <;> cases pyFloat? b <;> simp [ih]

theorem parseLoop_eq_GPD : ∀ t, Streamlit.parseLoop t = GPD.parseLoop t := by
  apply twoStepInduction
  · rfl
  · intro a; rfl
  · intro a b l ih
    simp only [Streamlit.parseLoop, GPD.parseLoop]
    cases pyFloat? a <;> cases pyFloat? b <;> simp [ih]

/-- If every token of the list parses as a float, the loop succeeds and
returns the swapped pairing of the parsed values. -/
theorem parseLoop_ok_of_all_some :
    ∀ (toks : List String) (qs : List ℚ), toks.map pyFloat? = qs.map some →
      Streamlit.parseLoop toks = .ok (swapPairs qs) := by
  apply twoStepInduction
    (P := fun toks => ∀ qs : List ℚ, toks.map pyFloat? = qs.map some →
      Streamlit.parseLoop toks = .ok (swapPairs qs))
  · intro qs hq
    rcases qs with _ | ⟨q, qs'⟩
    · rfl
    · simp at hq
  · intro a qs hq
    rcases qs with _ | ⟨q, qs'⟩
    · simp at hq
    · rcases qs' with _ | ⟨q2, qs''⟩
      · rfl
      · simp at hq
  · intro a b l ih qs hq
    rcases qs with _ | ⟨qa, qs'⟩
    · simp at hq
    · rcases qs' with _ | ⟨qb, qs''⟩
      · simp at hq
      · simp only [List.map] at hq
        rw [List.cons_eq_cons] at hq
        obtain ⟨ha, hq⟩ := hq
        rw [List.cons_eq_cons] at hq
        obtain ⟨hb, hq⟩ := hq
        rw [Streamlit.parseLoop, ha, hb, ih qs'' hq]
        rfl

/-- If some consumed token fails to parse as a float, the loop raises. -/
theorem parseLoop_error_of_bad :
    ∀ (toks : List String) (j : ℕ) (t : String),
      (j % 2 = 1 ∧ j < toks.length ∨ j % 2 = 0 ∧ j + 1 < toks.length) →
      toks.get? j = some t → pyFloat? t = none →
      ∃ e, Streamlit.parseLoop toks = .error e := by
  apply twoStepInduction
    (P := fun toks => ∀ (j : ℕ) (t : String),
      (j % 2 = 1 ∧ j < toks.length ∨ j % 2 = 0 ∧ j + 1 < toks.length) →
      toks.get? j = some t → pyFloat? t = none →
      ∃ e, Streamlit.parseLoop toks = .error e)
  · intro j t hc _ _
    simp at hc
  · intro a j t hc _ _
    simp at hc
    omega
  · intro a b l ih j t hc hg hbad
    match j, hc with
    | 0, _ =>
      rw [List.get?_cons_zero] at hg
      cases hg
      exact ⟨"could not convert string to float: " ++ a,
        by rw [Streamlit.parseLoop, hbad]⟩
    | 1, _ =>
      rw [List.get?_cons_succ, List.get?_cons_zero] at hg
      cases hg
      rcases h : pyFloat? a with _ | qa
      · exact ⟨"could not convert string to float: " ++ a,
          by rw [Streamlit.parseLoop, h]⟩
      · exact ⟨"could not convert string to float: " ++ b,
          by rw [Streamlit.parseLoop, h, hbad]⟩
    | (j' + 2), hc =>
      rw [List.get?_cons_succ, List.get?_cons_succ] at hg
      have hc' : j' % 2 = 1 ∧ j' < l.length ∨ j' % 2 = 0 ∧ j' + 1 < l.length := by
        simp at hc
        omega
      obtain ⟨e, he⟩ := ih j' t hc' hg hbad
      rcases ha : pyFloat? a with _ | qa
      · exact ⟨_, by rw [Streamlit.parseLoop, ha]⟩
      · rcases hb : pyFloat? b with _ | qb
        · exact ⟨_, by rw [Streamlit.parseLoop, ha, hb]⟩
        · exact ⟨e, by rw [Streamlit.parseLoop, ha, hb, he]; rfl⟩

/-- Feature count of one building element: exactly the emission condition. -/
theorem processBuilding_length (src : Option String) (b : Elem)
    (fs : List Feature) (h : Streamlit.processBuilding src b = .ok fs) :
    fs.length = if emitsFeature b then 1 else 0 := by
  rcases hf : findFirstDesc gmlPosListTag b with _ | p
  · simp only [Streamlit.processBuilding, hf] at h
    cases h
    simp [emitsFeature, hf]
  · rcases ht : p.text with _ | t
    · simp only [Streamlit.processBuilding, hf, ht] at h
      cases h
      simp [emitsFeature, hf, ht]
    · by_cases hemp : t = ""
      · simp only [Streamlit.processBuilding, hf, ht, if_pos hemp] at h
        cases h
        simp [emitsFeature, hf, ht, hemp]
      · rcases hp : Streamlit.parse_coordinates t with e | cs
        · simp only [Streamlit.processBuilding, hf, ht, if_neg hemp, hp] at h
          cases h
        · by_cases h3 : 3 ≤ cs.length
          · simp only [Streamlit.processBuilding, hf, ht, if_neg hemp, hp,
              if_pos h3] at h
            cases h
            simp [emitsFeature, hf, ht, hemp, hp, h3]
          · simp only [Streamlit.processBuilding, hf, ht, if_neg hemp, hp,
              if_neg h3] at h
            cases h
            simp [emitsFeature, hf, ht, hemp, hp, h3]

/-- An emitting building element yields exactly one feature, without error. -/
theorem processBuilding_of_emit (src : Option String) (b : Elem)
    (he : emitsFeature b = true) :
    ∃ f, Streamlit.processBuilding src b = .ok [f] := by
  rcases hf : findFirstDesc gmlPosListTag b with _ | p
  · simp [emitsFeature, hf] at he
  · rcases ht : p.text with _ | t
    · simp [emitsFeature, hf, ht] at he
    · by_cases hemp : t = ""
      · simp [emitsFeature, hf, ht, hemp] at he
      · rcases hp : Streamlit.parse_coordinates t with e | cs
        · simp [emitsFeature, hf, ht, hemp, hp] at he
        · simp only [emitsFeature, hf, ht, if_neg hemp, hp,
            decide_eq_true_eq] at he
          exact ⟨{ ftype := "Feature",
                   geometry := { gtype := "Polygon", coordinates := [cs] },
                   properties := buildProperties src b },
            by simp only [Streamlit.processBuilding, hf, ht, if_neg hemp, hp,
              if_pos he]⟩

/-- A quietly-skipping building element yields no feature and no error. -/
theorem processBuilding_of_skip (src : Option String) (b : Elem)
    (hs : skipsQuietly b = true) :
    Streamlit.processBuilding src b = .ok [] := by
  rcases hf : findFirstDesc gmlPosListTag b with _ | p
  · simp only [Streamlit.processBuilding, hf]
  · rcases ht : p.text with _ | t
    · simp only [Streamlit.processBuilding, hf, ht]
    · by_cases hemp : t = ""
      · simp only [Streamlit.processBuilding, hf, ht, if_pos hemp]
      · rcases hp : Streamlit.parse_coordinates t with e | cs
        · simp [skipsQuietly, hf, ht, hemp, hp] at hs
        · simp only [skipsQuietly, hf, ht, if_neg hemp, hp,
            decide_eq_true_eq] at hs
          simp only [Streamlit.processBuilding, hf, ht, if_neg hemp, hp,
            if_neg (by omega : ¬ 3 ≤ cs.length)]

/-- Feature count of the building loop. -/
theorem processBuildings_length (src : Option String) :
    ∀ (bs : List Elem) (out : List Feature),
      Streamlit.processBuildings src bs = .ok out →
      out.length = (bs.filter emitsFeature).length := by
  intro bs
  induction bs with
  | nil => intro out h; cases h; rfl
  | cons b rest ih =>
    intro out h
    rcases h1 : Streamlit.processBuilding src b with e | fs
    · simp only [Streamlit.processBuildings, h1] at h
      exact (Except.noConfusion h)
    · rcases h2 : Streamlit.processBuildings src rest with e | fs2
      · simp only [Streamlit.processBuildings, h1, h2] at h
        exact (Except.noConfusion h)
      · simp only [Streamlit.processBuildings, h1, h2] at h
        cases h
        rw [List.filter_cons]
        have hlen := processBuilding_length src b fs h1
        by_cases hemit : emitsFeature b
        · simp only [hemit, if_true, List.length_append, ih fs2 h2, hlen,
            List.length_cons]
          omega
        · simp only [hemit] at hlen
          simp only [hemit, Bool.false_eq_true, if_false, List.length_append,
            ih fs2 h2, hlen]
          simp

/-- Tokenising the empty string yields no tokens. -/
theorem pySplitWs_strip_empty : pySplitWs (pyStrip "") = [] := rfl

/-- String-level success case of the coordinate decoder. -/
theorem parse_coordinates_ok (s : String) (toks : List String) (qs : List ℚ)
    (hs : pySplitWs (pyStrip s) = toks) (hq : toks.map pyFloat? = qs.map some) :
    Streamlit.parse_coordinates s = .ok (swapPairs qs) := by
  by_cases hemp : s = ""
  · subst hemp
    rw [pySplitWs_strip_empty] at hs
    rcases qs with _ | ⟨q, qs'⟩
    · rfl
    · rw [← hs] at hq
      simp at hq
  · rw [Streamlit.parse_coordinates, if_neg hemp, hs]
    exact parseLoop_ok_of_all_some toks qs hq

/-- String-level failure case of the coordinate decoder. -/
theorem parse_coordinates_error (s : String) (toks : List String) (j : ℕ)
    (t : String) (hs : pySplitWs (pyStrip s) = toks)
    (hc : j % 2 = 1 ∧ j < toks.length ∨ j % 2 = 0 ∧ j + 1 < toks.length)
    (hg : toks.get? j = some t) (hbad : pyFloat? t = none) :
    ∃ e, Streamlit.parse_coordinates s = .error e := by
  by_cases hemp : s = ""
  · subst hemp
    rw [pySplitWs_strip_empty] at hs
    rw [← hs] at hg
    simp at hg
  · obtain ⟨e, he⟩ := parseLoop_error_of_bad toks j t hc hg hbad
    refine ⟨e, ?_⟩
    rw [Streamlit.parse_coordinates, if_neg hemp, hs]
    exact he

/-! ## Properties-dict lemmas -/

/-- A key outside the allow-list is untouched by the child loop body. -/
theorem dictGet_addChildProp (acc : PropDict) (c : Elem) (k : String)
    (hk : allowList.contains k = false) :
    dictGet (addChildProp acc c) k = dictGet acc k := by
  rw [addChildProp]
  by_cases h : allowList.contains (tagNameOf c) = true
  · rw [if_pos h]
    refine dictGet_insert_ne _ _ _ _ ?_
    intro e
    rw [e] at hk
    rw [hk] at h
    cases h
  · rw [if_neg h]

/-- A key outside the allow-list is untouched by the whole child loop. -/
theorem dictGet_foldl_addChildProp (k : String)
    (hk : allowList.contains k = false) :
    ∀ (cs : List Elem) (acc : PropDict),
      dictGet (cs.foldl addChildProp acc) k = dictGet acc k := by
  intro cs
  induction cs with
  | nil => intro acc; rfl
  | cons c rest ih =>
    intro acc
    rw [List.foldl_cons, ih, dictGet_addChildProp acc c k hk]

/-- source_file is outside the allow-list. -/
theorem source_file_not_allowed : allowList.contains "source_file" = false := by decide

/-- gml_id is outside the allow-list. -/
theorem gml_id_not_allowed : allowList.contains "gml_id" = false := by decide

/-- The base properties always carry the provenance entry when a non-empty
source name is given. -/
theorem dictGet_basePropsOf_source (n : String) (hn : n ≠ "") (b : Elem) :
    dictGet (basePropsOf (some n) b) "source_file" = some (some n) := by
  rw [basePropsOf]
  rw [dictGet_foldl_addChildProp "source_file" source_file_not_allowed]
  rw [if_neg hn]
  exact dictGet_insert_self [] "source_file" (some n)

/-- The full properties always carry the provenance entry when a non-empty
source name is given. -/
theorem dictGet_buildProperties_source (n : String) (hn : n ≠ "") (b : Elem) :
    dictGet (buildProperties (some n) b) "source_file" = some (some n) := by
  rw [buildProperties]
  rcases hid : dictGet b.attrib "gml:id" with _ | v
  · exact dictGet_basePropsOf_source n hn b
  · rw [dictGet_insert_ne _ _ _ _ (by decide)]
    exact dictGet_basePropsOf_source n hn b

/-- Shape of the per-building result: nothing, or a single polygon feature
carrying the properties of the building. -/
theorem processBuilding_shape (src : Option String) (b : Elem)
    (fs : List Feature) (h : Streamlit.processBuilding src b = .ok fs) :
    fs = [] ∨ ∃ cs : List Coord,
      fs = [{ ftype := "Feature",
              geometry := { gtype := "Polygon", coordinates := [cs] },
              properties := buildProperties src b }] := by
  rcases hf : findFirstDesc gmlPosListTag b with _ | p
  · simp only [Streamlit.processBuilding, hf] at h
    cases h
    exact Or.inl rfl
  · rcases ht : p.text with _ | t
    · simp only [Streamlit.processBuilding, hf, ht] at h
      cases h
      exact Or.inl rfl
    · by_cases hemp : t = ""
      · simp only [Streamlit.processBuilding, hf, ht, if_pos hemp] at h
        cases h
        exact Or.inl rfl
      · rcases hp : Streamlit.parse_coordinates t with e | cs
        · simp only [Streamlit.processBuilding, hf, ht, if_neg hemp, hp] at h
          exact (Except.noConfusion h)
        · by_cases h3 : 3 ≤ cs.length
          · simp only [Streamlit.processBuilding, hf, ht, if_neg hemp, hp,
              if_pos h3] at h
            cases h
            exact Or.inr ⟨cs, rfl⟩
          · simp only [Streamlit.processBuilding, hf, ht, if_neg hemp, hp,
              if_neg h3] at h
            cases h
            exact Or.inl rfl

/-- Every feature of the building loop carries the provenance entry. -/
theorem processBuildings_source (n : String) (hn : n ≠ "") :
    ∀ (bs : List Elem) (out : List Feature),
      Streamlit.processBuildings (some n) bs = .ok out →
      ∀ f ∈ out, dictGet f.properties "source_file" = some (some n) := by
  intro bs
  induction bs with
  | nil =>
    intro out h f hf
    cases h
    simp at hf
  | cons b rest ih =>
    intro out h f hf
    rcases h1 : Streamlit.processBuilding (some n) b with e | fs
    · simp only [Streamlit.processBuildings, h1] at h
      exact (Except.noConfusion h)
    · rcases h2 : Streamlit.processBuildings (some n) rest with e | fs2
      · simp only [Streamlit.processBuildings, h1, h2] at h
        exact (Except.noConfusion h)
      · simp only [Streamlit.processBuildings, h1, h2] at h
        cases h
        rcases List.mem_append.mp hf with hin | hin
        · rcases processBuilding_shape (some n) b fs h1 with rfl | ⟨cs, rfl⟩
          · simp at hin
          · rw [List.mem_singleton.mp hin]
            exact dictGet_buildProperties_source n hn b
        · exact ih fs2 h2 f hin

/-- Every feature of parse_building_xml carries the provenance entry. -/
theorem parse_building_xml_source (n : String) (hn : n ≠ "") (xml : XMLInput)
    (fs : List Feature) (log : List String)
    (h : Streamlit.parse_building_xml xml (some n) = .ok (fs, log)) :
    ∀ f ∈ fs, dictGet f.properties "source_file" = some (some n) := by
  intro f hf
  rcases xml with _ | root
  · simp only [Streamlit.parse_building_xml] at h
    cases h
    simp at hf
  · rcases hb : Streamlit.processBuildings (some n) (findallDesc bldATag root)
      with e | fs2
    · simp only [Streamlit.parse_building_xml, hb] at h
      exact (Except.noConfusion h)
    · simp only [Streamlit.parse_building_xml, hb] at h
      cases h
      exact processBuildings_source n hn _ fs hb f hf

/-- Every feature of the XML-entry step carries the provenance entry. -/
theorem processXmlEntry_source (n : String) (hn : n ≠ "") (e : String × Blob)
    (f : Feature) (hf : f ∈ (Streamlit.processXmlEntry n e).1) :
    dictGet f.properties "source_file" = some (some n) := by
  rcases hx : e.2.asXml with _ | xml
  · simp only [Streamlit.processXmlEntry, hx] at hf
    simp at hf
  · rcases hp : Streamlit.parse_building_xml xml (some n) with er | pr
    · simp only [Streamlit.processXmlEntry, hx, hp] at hf
      simp at hf
    · simp only [Streamlit.processXmlEntry, hx, hp] at hf
      exact parse_building_xml_source n hn xml pr.1 pr.2 (by rw [hp]) f hf

/-- The sub-archive step, written as concatenations over the filtered
building entries. -/
theorem processSubZip_eq (n : String) (e : String × Blob) (sl : ZipListing)
    (h : e.2.asZip = some sl) :
    Streamlit.processSubZip n e =
      ((sl.filter (fun f => isBldAXmlName f.1)).flatMap
         (fun f => (Streamlit.processXmlEntry n f).1),
       (sl.filter (fun f => isBldAXmlName f.1)).flatMap
         (fun f => (Streamlit.processXmlEntry n f).2)) := by
  simp only [Streamlit.processSubZip, h]
  simpa using foldl_pair_eq_flatMap (fun f => Streamlit.processXmlEntry n f)
    (sl.filter (fun f => isBldAXmlName f.1)) ([], [])

/-- The case-1 loop, written as concatenations. -/
theorem subZipFold_eq (n : String) (l : ZipListing) :
    Streamlit.subZipFold n l =
      (l.flatMap (fun e => (Streamlit.processSubZip n e).1),
       l.flatMap (fun e => (Streamlit.processSubZip n e).2)) := by
  simpa [Streamlit.subZipFold]
    using foldl_pair_eq_flatMap (fun e => Streamlit.processSubZip n e) l ([], [])

/-- The case-2 loop, written as concatenations. -/
theorem xmlFold_eq (n : String) (l : ZipListing) :
    Streamlit.xmlFold n l =
      (l.flatMap (fun e => (Streamlit.processXmlEntry n e).1),
       l.flatMap (fun e => (Streamlit.processXmlEntry n e).2)) := by
  simpa [Streamlit.xmlFold]
    using foldl_pair_eq_flatMap (fun e => Streamlit.processXmlEntry n e) l ([], [])

/-- Every feature of the sub-archive step carries the provenance entry. -/
theorem processSubZip_source (n : String) (hn : n ≠ "") (e : String × Blob)
    (f : Feature) (hf : f ∈ (Streamlit.processSubZip n e).1) :
    dictGet f.properties "source_file" = some (some n) := by
  rcases hz : e.2.asZip with _ | sl
  · simp only [Streamlit.processSubZip, hz] at hf
    simp at hf
  · rw [processSubZip_eq n e sl hz] at hf
    obtain ⟨x, _, hx⟩ := List.mem_flatMap.mp hf
    exact processXmlEntry_source n hn x f hx

/-- Every feature of the walker carries the provenance entry when the
display name is non-empty. -/
theorem extract_source (b : Blob) (n : String) (hn : n ≠ "") (f : Feature)
    (hf : f ∈ (Streamlit.extract_and_convert_building_files b n).1) :
    dictGet f.properties "source_file" = some (some n) := by
  rcases hz : b.asZip with _ | fl
  · simp only [Streamlit.extract_and_convert_building_files, hz] at hf
    simp at hf
  · simp only [Streamlit.extract_and_convert_building_files, hz] at hf
    by_cases h1 : (fl.filter (fun f => isZipName f.1)).isEmpty = false
    · rw [if_pos h1] at hf
      rw [subZipFold_eq] at hf
      obtain ⟨x, _, hx⟩ := List.mem_flatMap.mp hf
      exact processSubZip_source n hn x f hx
    · rw [if_neg h1] at hf
      by_cases h2 : (fl.filter (fun f => isBldAXmlName f.1)).isEmpty = false
      · rw [if_pos h2] at hf
        rw [xmlFold_eq] at hf
        obtain ⟨x, _, hx⟩ := List.mem_flatMap.mp hf
        exact processXmlEntry_source n hn x f hx
      · rw [if_neg h2] at hf
        simp at hf

/-- The merge loop of main, written as a concatenation. -/
theorem mainMerge_eq (inputs : List (String × Blob)) :
    Streamlit.mainMerge inputs =
      inputs.flatMap
        (fun i => (Streamlit.extract_and_convert_building_files i.2 i.1).1) := by
  simpa [Streamlit.mainMerge]
    using foldl_list_eq_flatMap
      (fun i : String × Blob =>
        (Streamlit.extract_and_convert_building_files i.2 i.1).1) inputs []

/-- Python truthiness of a list. -/
theorem isEmpty_eq_false_of_ne_nil {α : Type _} {l : List α} (h : l ≠ []) :
    l.isEmpty = false := by
  cases l
  · exact absurd rfl h
  · rfl

/-! ## JSON escaping lemmas -/

/-- Any character at or above code point 128 is kept literally. -/
theorem escCharL_high (c : Char) (h : 128 ≤ c.toNat) : escCharL c = [c] := by
  have h1 : ¬ c = '"' := by rintro rfl; revert h; decide
  have h2 : ¬ c = '\\' := by rintro rfl; revert h; decide
  have h3 : ¬ c = '\n' := by rintro rfl; revert h; decide
  have h4 : ¬ c = '\r' := by rintro rfl; revert h; decide
  have h5 : ¬ c = '\t' := by rintro rfl; revert h; decide
  have h6 : ¬ c.toNat < 32 := by omega
  rw [escCharL, if_neg h1, if_neg h2, if_neg h3, if_neg h4, if_neg h5, if_neg h6]

/-- A non-ASCII character of the input occurs literally in the escaped
output. -/
theorem mem_escChars (l : List Char) (c : Char) (hc : c ∈ l)
    (h : 128 ≤ c.toNat) : c ∈ escChars l :=
  List.mem_flatMap.mpr ⟨c, hc, by rw [escCharL_high c h]; exact List.mem_singleton_self c⟩

/-! ## Claims -/

/-- C1: a building element processed by parse_building_xml contributes a
feature exactly when its first posList descendant exists, has non-empty
text, and that text decodes to at least 3 coordinate pairs (so the feature
count of a document is the count of such building elements); a building
element with fewer than 3 successfully decoded pairs, with no posList, or
with an empty posList contributes zero features and raises no error; and
the create_geojson_feature gate of xml_to_geojson.py emits a feature
exactly when the decoded geometry has at least 3 pairs. -/
theorem claim_C1 :
    (∀ (root : Elem) (src : Option String) (fs : List Feature)
        (log : List String),
        Streamlit.parse_building_xml (some root) src = .ok (fs, log) →
        fs.length = ((findallDesc bldATag root).filter emitsFeature).length) ∧
    (∀ (b : Elem) (src : Option String), emitsFeature b = true →
        ∃ f, Streamlit.processBuilding src b = .ok [f]) ∧
    (∀ (b : Elem) (src : Option String), skipsQuietly b = true →
        Streamlit.processBuilding src b = .ok []) ∧
    (∀ (b : Elem) (coords : List Coord),
        (XTG.create_geojson_feature b coords).isSome = true ↔
          3 ≤ coords.length) := by
  refine ⟨?_, ?_, ?_, ?_⟩
  · intro root src fs log h
    rcases hb : Streamlit.processBuildings src (findallDesc bldATag root)
      with e | fs2
    · simp only [Streamlit.parse_building_xml, hb] at h
      exact (Except.noConfusion h)
    · simp only [Streamlit.parse_building_xml, hb] at h
      cases h
      exact processBuildings_length src _ fs hb
  · intro b src he
    exact processBuilding_of_emit src b he
  · intro b src hs
    exact processBuilding_of_skip src b hs
  · intro b coords
    constructor
    · intro hs
      by_cases h : coords.isEmpty = false ∧ 3 ≤ coords.length
      · exact h.2
      · rw [XTG.create_geojson_feature, if_neg h] at hs
        simp at hs
    · intro h3
      have hne : coords.isEmpty = false := by
        rcases coords with _ | ⟨c, r⟩
        · simp at h3
        · rfl
      rw [XTG.create_geojson_feature, if_pos ⟨hne, h3⟩]
      rfl

/-- Witness for C1 on a document with a 4-point and a 2-point building. -/
theorem claim_C1_witness :
    [featFour].length =
      ((findallDesc bldATag docFourTwo).filter emitsFeature).length ∧
    (∃ f, Streamlit.processBuilding none bldFour = .ok [f]) ∧
    Streamlit.processBuilding none bldTwo = .ok [] ∧
    ((XTG.create_geojson_feature bldFour
        [(135, 34), (136, 34), (136, 35)]).isSome = true ↔
      3 ≤ ([(135, 34), (136, 34), (136, 35)] : List Coord).length) :=
  ⟨claim_C1.1 docFourTwo none [featFour] [] (by rfl),
   claim_C1.2.1 bldFour none (by decide),
   claim_C1.2.2.1 bldTwo none (by decide),
   claim_C1.2.2.2 bldFour [(135, 34), (136, 34), (136, 35)]⟩

/-- C2: on a whitespace-separated string whose tokens all parse as floats,
parse_coordinates succeeds with exactly floor(n/2) pairs, the i-th pair
being the swapped (longitude, latitude) of the i-th token pair, the
dangling final token of an odd input being dropped. -/
theorem claim_C2 (s : String) (toks : List String) (qs : List ℚ)
    (hs : pySplitWs (pyStrip s) = toks)
    (hq : toks.map pyFloat? = qs.map some) :
    Streamlit.parse_coordinates s = .ok (swapPairs qs) ∧
    (swapPairs qs).length = toks.length / 2 ∧
    ∀ (i : ℕ) (a b : ℚ), qs.get? (2 * i) = some a →
      qs.get? (2 * i + 1) = some b → (swapPairs qs).get? i = some (b, a) := by
  refine ⟨parse_coordinates_ok s toks qs hs hq, ?_, swapPairs_get qs⟩
  have hlen : toks.length = qs.length := by
    have := congrArg List.length hq
    simpa using this
  rw [hlen, swapPairs_length]

/-- Witness for C2 on a five-token string (dangling token dropped). -/
theorem claim_C2_witness :
    Streamlit.parse_coordinates "34 135 35 136 99" = .ok [(135, 34), (136, 35)] := by
  have h := claim_C2 "34 135 35 136 99" ["34", "135", "35", "136", "99"]
    [34, 135, 35, 136, 99] (by decide) (by decide)
  rw [h.1]
  rfl

/-- C10: the four parse_coordinates implementations agree on every input,
both in their returned pair sequences and in their raised errors. -/
theorem claim_C10 (s : String) :
    Streamlit.parse_coordinates s = XTG.parse_coordinates s ∧
    Streamlit.parse_coordinates s = Fast.parse_coordinates s ∧
    Streamlit.parse_coordinates s = GPD.parse_coordinates s := by
  refine ⟨?_, ?_, ?_⟩
  · rw [Streamlit.parse_coordinates, XTG.parse_coordinates]
    by_cases h : s = ""
    · rw [if_pos h, if_pos h]
    · rw [if_neg h, if_neg h, parseLoop_eq_XTG]
  · rw [Streamlit.parse_coordinates, Fast.parse_coordinates]
    by_cases h : s = ""
    · rw [if_pos h, if_pos h]
    · rw [if_neg h, if_neg h, parseLoop_eq_Fast]
  · rw [Streamlit.parse_coordinates, GPD.parse_coordinates]
    by_cases h : s = ""
    · rw [if_pos h, if_pos h]
    · rw [if_neg h, if_neg h, parseLoop_eq_GPD]

/-- C3: the walker branches in fixed priority order on the entry listing:
when any entry named *.zip exists, exactly those sub-archives are opened
and only their *-BldA-*.xml entries processed; otherwise, when direct
*-BldA-*.xml entries exist, exactly those are processed; otherwise the
result is the empty feature list with one recorded warning and no error. -/
theorem claim_C3 :
    (∀ (b : Blob) (name : String) (fl : ZipListing), b.asZip = some fl →
      ((fl.filter (fun f => isZipName f.1) ≠ [] →
          Streamlit.extract_and_convert_building_files b name =
            ((fl.filter (fun f => isZipName f.1)).flatMap
               (fun e => (Streamlit.processSubZip name e).1),
             (fl.filter (fun f => isZipName f.1)).flatMap
               (fun e => (Streamlit.processSubZip name e).2))) ∧
       (fl.filter (fun f => isZipName f.1) = [] →
        fl.filter (fun f => isBldAXmlName f.1) ≠ [] →
          Streamlit.extract_and_convert_building_files b name =
            ((fl.filter (fun f => isBldAXmlName f.1)).flatMap
               (fun e => (Streamlit.processXmlEntry name e).1),
             (fl.filter (fun f => isBldAXmlName f.1)).flatMap
               (fun e => (Streamlit.processXmlEntry name e).2))) ∧
       (fl.filter (fun f => isZipName f.1) = [] →
        fl.filter (fun f => isBldAXmlName f.1) = [] →
          Streamlit.extract_and_convert_building_files b name =
            ([], ["no building data found: " ++ name])))) ∧
    (∀ (name : String) (e : String × Blob) (sl : ZipListing),
        e.2.asZip = some sl →
        (Streamlit.processSubZip name e).1 =
          (sl.filter (fun f => isBldAXmlName f.1)).flatMap
            (fun f => (Streamlit.processXmlEntry name f).1)) := by
  constructor
  · intro b name fl hz
    refine ⟨?_, ?_, ?_⟩
    · intro h1
      simp only [Streamlit.extract_and_convert_building_files, hz]
      rw [if_pos (isEmpty_eq_false_of_ne_nil h1)]
      exact subZipFold_eq name _
    · intro h1 h2
      simp only [Streamlit.extract_and_convert_building_files, hz]
      rw [if_neg (by simp [h1]), if_pos (isEmpty_eq_false_of_ne_nil h2)]
      exact xmlFold_eq name _
    · intro h1 h2
      simp only [Streamlit.extract_and_convert_building_files, hz]
      rw [if_neg (by simp [h1]), if_neg (by simp [h2])]
  · intro name e sl hz
    rw [processSubZip_eq name e sl hz]

/-- Witness for C3: the nested, flat, and empty archive fixtures. -/
theorem claim_C3_witness :
    Streamlit.extract_and_convert_building_files archiveNested "A.zip" =
      ([featFourA], []) ∧
    Streamlit.extract_and_convert_building_files archiveFlat "B.zip" =
      ([featFourB], []) ∧
    Streamlit.extract_and_convert_building_files archiveEmpty "C.zip" =
      ([], ["no building data found: C.zip"]) := by
  have h1 := (claim_C3.1 archiveNested "A.zip" [("sub1.zip", subZipBlob)] rfl).1
    (List.cons_ne_nil _ _)
  have h2 := (claim_C3.1 archiveFlat "B.zip" [("02-BldA-02.xml", blobDocFourTwo)]
    rfl).2.1 rfl (List.cons_ne_nil _ _)
  have h3 := (claim_C3.1 archiveEmpty "C.zip" [("readme.txt", Blob.mk none none)]
    rfl).2.2 rfl rfl
  exact ⟨by rw [h1]; rfl, by rw [h2]; rfl, h3⟩

/-- C4 (evaluation at the failing input): the building child whose
ElementTree tag is the namespace-qualified fid — it starts with an opening
brace but does not end with a closing brace, so the converters never strip
its namespace prefix — is dropped from the output properties although its
local name fid is allow-listed; the feature is emitted with empty
properties. -/
theorem claim_C4_eval :
    strStartsWith (fgd_ns ++ "fid") "\x7b" = true ∧
    strEndsWith (fgd_ns ++ "fid") "\x7d" = false ∧
    allowList.contains "fid" = true ∧
    nsFidChild.text = some "51394689" ∧
    Streamlit.parse_building_xml (some docNsFid) none = .ok ([featNsFid], []) ∧
    dictGet featNsFid.properties "fid" = none :=
  ⟨by decide, by decide, by decide, by decide, by rfl, by decide⟩

/-- C5: a malformed document yields an empty feature list plus an error
report instead of raising; an unreadable sub-archive, an undecodable
entry, and an extraction exception each become one recorded warning with
no features; and the case-1 loop processes every sibling of a failing
entry, concatenating their features in order. -/
theorem claim_C5 :
    (∀ src : Option String,
        Streamlit.parse_building_xml none src = .ok ([], ["XML parse error"])) ∧
    (∀ (name : String) (e : String × Blob), e.2.asZip = none →
        Streamlit.processSubZip name e = ([], ["sub zip error: " ++ e.1])) ∧
    (∀ (name : String) (e : String × Blob), e.2.asXml = none →
        Streamlit.processXmlEntry name e = ([], ["entry error: " ++ e.1])) ∧
    (∀ (name : String) (e : String × Blob) (xml : XMLInput) (msg : String),
        e.2.asXml = some xml →
        Streamlit.parse_building_xml xml (some name) = .error msg →
        Streamlit.processXmlEntry name e = ([], ["entry error: " ++ e.1])) ∧
    (∀ (name : String) (pre : ZipListing) (e : String × Blob)
        (post : ZipListing),
        (Streamlit.subZipFold name (pre ++ e :: post)).1 =
          (Streamlit.subZipFold name pre).1 ++ (Streamlit.processSubZip name e).1 ++
          (Streamlit.subZipFold name post).1) := by
  refine ⟨fun src => rfl, ?_, ?_, ?_, ?_⟩
  · intro name e hz
    simp only [Streamlit.processSubZip, hz]
  · intro name e hx
    simp only [Streamlit.processXmlEntry, hx]
  · intro name e xml msg hx hp
    simp only [Streamlit.processXmlEntry, hx, hp]
  · intro name pre e post
    rw [subZipFold_eq, subZipFold_eq, subZipFold_eq]
    simp [List.flatMap_append, List.append_assoc]

/-- Witness for C5: failing payloads between good ones. -/
theorem claim_C5_witness :
    Streamlit.parse_building_xml none (some "A.zip") =
      .ok ([], ["XML parse error"]) ∧
    Streamlit.processSubZip "A.zip" ("bad.zip", blobOpaque) =
      ([], ["sub zip error: bad.zip"]) ∧
    Streamlit.processXmlEntry "A.zip" ("x-BldA-1.xml", blobOpaque) =
      ([], ["entry error: x-BldA-1.xml"]) ∧
    Streamlit.processXmlEntry "A.zip" ("y-BldA-2.xml", Blob.mk none (some (some (Elem.mk "Dataset" [] none (.cons bldBad .nil))))) =
      ([], ["entry error: y-BldA-2.xml"]) ∧
    (Streamlit.subZipFold "A.zip"
        ([("sub1.zip", subZipBlob)] ++ ("bad.zip", blobOpaque) ::
          [("sub2.zip", subZipBlob)])).1 =
      [featFourA] ++ [] ++ [featFourA] := by
  refine ⟨claim_C5.1 (some "A.zip"),
    claim_C5.2.1 "A.zip" ("bad.zip", blobOpaque) rfl,
    claim_C5.2.2.1 "A.zip" ("x-BldA-1.xml", blobOpaque) rfl,
    claim_C5.2.2.2.1 "A.zip" _ (some (Elem.mk "Dataset" [] none (.cons bldBad .nil))) abcErr rfl (by rfl),
    ?_⟩
  rw [claim_C5.2.2.2.2 "A.zip" [("sub1.zip", subZipBlob)] ("bad.zip", blobOpaque)
    [("sub2.zip", subZipBlob)]]
  rfl

/-- C6 (amended): the merged output of main is the in-order concatenation
of the per-archive feature sequences, and every feature extracted from an
archive whose display name is non-empty carries a source_file property
equal to that name, regardless of nesting depth.  (The restriction to
non-empty names is forced by the truthiness guard of streamlit_app.py
line 69: for an empty display name no source_file property is written,
see the counterexample.) -/
theorem claim_C6 (inputs : List (String × Blob)) :
    Streamlit.mainMerge inputs =
      inputs.flatMap
        (fun i => (Streamlit.extract_and_convert_building_files i.2 i.1).1) ∧
    ∀ i ∈ inputs, i.1 ≠ "" →
      ∀ f ∈ (Streamlit.extract_and_convert_building_files i.2 i.1).1,
        dictGet f.properties "source_file" = some (some i.1) := by
  refine ⟨mainMerge_eq inputs, ?_⟩
  intro i _ hn f hf
  exact extract_source i.2 i.1 hn f hf

/-- Counterexample to C6 as frozen: at the empty display name the walker
still extracts the feature, but the truthiness guard skips the provenance
insert, so the feature carries no source_file property at all. -/
theorem claim_C6_counterexample :
    Streamlit.mainMerge [("", archiveNested)] = [featFour] ∧
    dictGet featFour.properties "source_file" = none :=
  ⟨by rfl, by decide⟩

/-- Witness for C6 on two archives A.zip (nested) and B.zip (flat). -/
theorem claim_C6_witness :
    Streamlit.mainMerge [("A.zip", archiveNested), ("B.zip", archiveFlat)] =
      [featFourA, featFourB] ∧
    dictGet featFourA.properties "source_file" = some (some "A.zip") := by
  have h := claim_C6 [("A.zip", archiveNested), ("B.zip", archiveFlat)]
  refine ⟨by rw [h.1]; rfl, ?_⟩
  exact h.2 ("A.zip", archiveNested) (List.mem_cons_self _ _) (by decide)
    featFourA (by decide)

/-- C7 (evaluation at the failing input): ElementTree expands namespaced
attribute names exactly as it expands element tags, so a parsed gml:id
attribute is stored under the namespace-qualified id key and never under
the literal key gml:id that the converters test (streamlit_app.py line
83).  On a building carrying gml:id as actually parsed, the check misses
and the emitted feature has no gml_id property, although the claim (and
the spec) say its value is captured. -/
theorem claim_C7_eval :
    bldNsGmlId.attrib = [(gml_ns ++ "id", "BLD123")] ∧
    dictGet bldNsGmlId.attrib "gml:id" = none ∧
    dictGet bldNsGmlId.attrib (gml_ns ++ "id") = some "BLD123" ∧
    Streamlit.parse_building_xml (some docNsGmlId) none =
      .ok ([featNsGmlId], []) ∧
    dictGet featNsGmlId.properties "gml_id" = none :=
  ⟨by decide, by decide, by decide, by rfl, by decide⟩

/-- C8: a non-numeric token in consumed position makes parse_coordinates
raise a numeric-format error (never a partial or empty result), and that
error propagates out of the enclosing per-building geometry parse. -/
theorem claim_C8 :
    (∀ (s : String) (toks : List String) (j : ℕ) (t : String),
        pySplitWs (pyStrip s) = toks →
        (j % 2 = 1 ∧ j < toks.length ∨ j % 2 = 0 ∧ j + 1 < toks.length) →
        toks.get? j = some t → pyFloat? t = none →
        ∃ e, Streamlit.parse_coordinates s = .error e) ∧
    (∀ (b p : Elem) (src : Option String) (t : String) (e : String),
        findFirstDesc gmlPosListTag b = some p → p.text = some t → t ≠ "" →
        Streamlit.parse_coordinates t = .error e →
        Streamlit.processBuilding src b = .error e) := by
  constructor
  · exact fun s toks j t hs hc hg hbad =>
      parse_coordinates_error s toks j t hs hc hg hbad
  · intro b p src t e hf ht hemp hp
    simp only [Streamlit.processBuilding, hf, ht, if_neg hemp, hp]

/-- Witness for C8 on the token stream 35 abc. -/
theorem claim_C8_witness :
    (∃ e, Streamlit.parse_coordinates "35 abc" = .error e) ∧
    Streamlit.processBuilding none bldBad = .error abcErr :=
  ⟨claim_C8.1 "35 abc" ["35", "abc"] 1 "abc" (by decide) (by decide)
      (by decide) (by decide),
   claim_C8.2 bldBad (mkPosList "35 abc") none "35 abc" abcErr rfl rfl
      (by decide) (by rfl)⟩

/-- C9: the serialized output object has exactly the two members type (the
string FeatureCollection) and features (exactly the accumulated feature
array), and string serialization under ensure_ascii=False keeps every
non-ASCII character literally. -/
theorem claim_C9 :
    (∀ fs : List Feature,
        jsonKeys (geojson_data fs) = some ["type", "features"]) ∧
    (∀ fs : List Feature,
        jsonGet (geojson_data fs) "type" = some (.str "FeatureCollection")) ∧
    (∀ fs : List Feature,
        jsonGet (geojson_data fs) "features"
          = some (.arr (fs.map featureToJson))) ∧
    (∀ s : String, dumps (.str s) = "\"" ++ String.mk (escChars s.data) ++ "\"") ∧
    (∀ c : Char, 128 ≤ c.toNat → escCharL c = [c]) ∧
    (∀ (l : List Char) (c : Char), c ∈ l → 128 ≤ c.toNat → c ∈ escChars l) := by
  refine ⟨fun fs => rfl, fun fs => rfl, fun fs => rfl, fun s => ?_,
    escCharL_high, mem_escChars⟩
  simp [dumps]

/-- Witness for C9 on a non-ASCII (hiragana) character. -/
theorem claim_C9_witness :
    jsonKeys (geojson_data [featFour]) = some ["type", "features"] ∧
    escCharL 'あ' = ['あ'] ∧
    'あ' ∈ escChars ['x', 'あ'] :=
  ⟨claim_C9.1 [featFour],
   claim_C9.2.2.2.2.1 'あ' (by decide),
   claim_C9.2.2.2.2.2 ['x', 'あ'] 'あ' (by decide) (by decide)⟩
